import Mathlib

/-!
# Verification of the priority-graph metrics and state-simulation engine

A shallow embedding of the `RoadmapGraph` engine (TypeScript class in the
repository's graph module) into Lean 4, together with proofs and refutations
of the frozen specification claims.

Modelling conventions:
* JS `number` is modelled as `ℚ` (all arithmetic in the claims is exact
  decimal arithmetic; `Math.round(x)` is modelled as `⌊x + 1/2⌋`, which is
  the rounding JS performs on these values).
* A JS `Map` is modelled as the underlying insertion list: lookup takes the
  value of the *last* insertion for a key (`mapGet`), iteration enumerates
  keys in first-insertion order (`mapKeys`).
* A JS `Set` of strings is modelled as a duplicate-free `List String` in
  insertion order (`setAdd` / `setDel`); all engine reads of the completed
  set are membership tests.
* The class's mutable state (`completedNodes`, `node.status`) is threaded
  explicitly: mutators return the updated `RoadmapGraph` value.
* Recursions that walk the parent chain / child tree / work queues are given
  explicit fuel that dominates the recursion depth of every run of the
  source on validator-accepted (acyclic-parent) input; the engine assumes
  such input.
* The descendant cache is modelled by its cache-miss path
  (`computeDescendants` of the `GraphOptimizer`): the engine trusts the
  cache file verbatim only as a persisted copy of that same computation.
* `edge.factor` truthiness (`edge.factor` in a JS condition) is modelled as
  `edge.factor.getD 0 ≠ 0`, and `node.baseEffort ?? 0` as `.getD 0`.
-/

attribute [local semireducible] Rat.mul Rat.add Rat.sub Rat.inv Rat.ofScientific

namespace PriorityGraph

/-- Node hierarchy levels (`NodeType` in `types.ts` / the zod schema). -/
inductive NodeType where
  | pillar
  | initiative
  | problem
  | solution
  deriving DecidableEq

/-- Node workflow status (`NodeStatus` in `types.ts`). -/
inductive NodeStatus where
  | backlog
  | ready
  | in_progress
  | done
  deriving DecidableEq

/-- Edge types (the zod `EdgeTypeSchema` actually used by the engine). -/
inductive EdgeType where
  | DEPENDS_ON
  | FACILITATES
  | DERISKS
  | INFORMS
  | NEEDS_COORDINATION
  | RELATES_TO
  deriving DecidableEq

/-- A graph node (`GraphNode`). `status` is optional in the input document;
only solutions carry `baseEffort`/`baseRisk`/`baseUncertainty`. -/
structure GraphNode where
  id : String
  type : NodeType
  title : String
  parentId : Option String
  status : Option NodeStatus
  baseEffort : Option ℚ
  baseRisk : Option ℚ
  baseUncertainty : Option ℚ
  deriving DecidableEq

/-- A graph edge (`GraphEdge`); `note` models the optional `annotation`
string, `factor` the reduction factor of FACILITATES/DERISKS/INFORMS. -/
structure GraphEdge where
  id : String
  source : String
  target : String
  type : EdgeType
  factor : Option ℚ
  note : Option String
  deriving DecidableEq

/-- The validated input document (`GraphData`); `meta` is irrelevant to the
engine and omitted. -/
structure GraphData where
  nodes : List GraphNode
  edges : List GraphEdge
  deriving DecidableEq

/-- JS `Set.add`: appends iff absent. -/
def setAdd (s : List String) (x : String) : List String :=
  if s.contains x then s else s ++ [x]

/-- JS `Set.delete`: removes every occurrence (there is at most one). -/
def setDel (s : List String) (x : String) : List String :=
  s.filter (fun y => !(y == x))

/-- JS `Map.get` over the node list: the *last* insertion for a key wins. -/
def mapGet (l : List GraphNode) (id : String) : Option GraphNode :=
  l.reverse.find? (fun n => n.id == id)

/-- JS `Map` key iteration order: first-insertion order, deduplicated. -/
def mapKeys (l : List GraphNode) : List String :=
  l.foldl (fun acc n => setAdd acc n.id) []

/-- The engine's state: the node map (as its insertion list), the edge list
and the completed-set.  Adjacency lists, the children index and the
descendants cache are pure functions of `nodes`/`edges` and are derived on
demand below (they are built once from the same data in the constructor and
never change afterwards). -/
structure RoadmapGraph where
  nodes : List GraphNode
  edges : List GraphEdge
  completedNodes : List String
  deriving DecidableEq

/-- Whether `id` is a key of the node map. -/
def hasNode (g : RoadmapGraph) (id : String) : Bool :=
  g.nodes.any (fun n => n.id == id)

/-- Adjacency list `outgoing.get(id) ?? []`: edges with source `id`, in edge
order; empty when `id` is not a node key (the constructor only creates
adjacency entries for node keys). -/
def outgoing (g : RoadmapGraph) (id : String) : List GraphEdge :=
  if hasNode g id then g.edges.filter (fun e => e.source == id) else []

/-- Adjacency list `incoming.get(id) ?? []`: edges with target `id`. -/
def incoming (g : RoadmapGraph) (id : String) : List GraphEdge :=
  if hasNode g id then g.edges.filter (fun e => e.target == id) else []

/-- Source `children.get(id) ?? []`: ids of nodes whose `parentId` is `id`;
only node keys have an entry. -/
def childrenOf (g : RoadmapGraph) (id : String) : List String :=
  if hasNode g id then
    (g.nodes.filter (fun n => n.parentId == some id)).map (fun n => n.id)
  else []

/-- The optimizer's `childrenMap` (built over the raw node list, any
`parentId` string gets an entry). -/
def childMap (nodes : List GraphNode) (id : String) : List String :=
  (nodes.filter (fun n => n.parentId == some id)).map (fun n => n.id)

/-- Source `GraphOptimizer.getDescendantsRecursive`: each child followed by its own
descendants (pre-order).  Fuel bounds recursion depth; `nodes.length + 1`
dominates the depth of every run on acyclic-parent input. -/
def descendantsRecAux (cm : String → List String) : Nat → String → List String
  | 0, _ => []
  | fuel + 1, nodeId =>
    (cm nodeId).flatMap (fun childId => childId :: descendantsRecAux cm fuel childId)

/-- Source `getAllDescendants` = `descendantsCache[nodeId] || []`, where the cache
is `GraphOptimizer.computeDescendants(data.nodes)` (cache-miss path). -/
def getAllDescendants (g : RoadmapGraph) (nodeId : String) : List String :=
  if hasNode g nodeId then
    descendantsRecAux (childMap g.nodes) (g.nodes.length + 1) nodeId
  else []

/-- The `RoadmapGraph` constructor: indexes the document and seeds the
completed-set from every node whose `status` is `"done"`. -/
def initGraph (data : GraphData) : RoadmapGraph :=
  { nodes := data.nodes
    edges := data.edges
    completedNodes :=
      data.nodes.foldl
        (fun s n => if n.status == some NodeStatus.done then setAdd s n.id else s) [] }

/-- Source `isCompleted`. -/
def isCompleted (g : RoadmapGraph) (nodeId : String) : Bool :=
  g.completedNodes.contains nodeId

/-- JS `Math.round` on the (non-negative) values the engine rounds:
`⌊x + 1/2⌋` (round half towards positive infinity). -/
def jsRound (q : ℚ) : ℚ := ((Rat.floor (q + 1/2) : ℤ) : ℚ)

/-- Outgoing DEPENDS_ON edges of a node (used by the resolver and DFS). -/
def depOut (g : RoadmapGraph) (id : String) : List GraphEdge :=
  (outgoing g id).filter (fun e => e.type == EdgeType.DEPENDS_ON)

/-- The parent-chain part of `getAllDependencies`: the
`while (currentNode?.parentId)` loop collecting each ancestor's direct
DEPENDS_ON edges.  Fuel dominates the chain length on acyclic input. -/
def inheritedDepsAux (g : RoadmapGraph) : Nat → Option GraphNode → List GraphEdge
  | 0, _ => []
  | _ + 1, none => []
  | fuel + 1, some current =>
    match current.parentId with
    | none => []
    | some pid => depOut g pid ++ inheritedDepsAux g fuel (mapGet g.nodes pid)

/-- Source `findAncestorOfType`: walk `parentId` upwards until a node of the wanted
type (the start node itself counts). -/
def findAncestorOfType (g : RoadmapGraph) : Nat → Option String → NodeType → Option String
  | 0, _, _ => none
  | _ + 1, none, _ => none
  | fuel + 1, some nodeId, t =>
    match mapGet g.nodes nodeId with
    | none => none
    | some current =>
      if current.type == t then some current.id
      else
        match current.parentId with
        | none => none
        | some pid => findAncestorOfType g fuel (some pid) t

/-- One `uniqueDeps.set(dep.target, dep)` step of the resolver's
deduplication map (replace the value of an existing key, else append). -/
def upsertByTarget (acc : List (String × GraphEdge)) (e : GraphEdge) :
    List (String × GraphEdge) :=
  if acc.any (fun p => p.1 == e.target) then
    acc.map (fun p => if p.1 == e.target then (e.target, e) else p)
  else acc ++ [(e.target, e)]

/-- Source `Array.from(uniqueDeps.values())`: last write per target wins, keys keep
first-insertion order. -/
def dedupByTarget (l : List GraphEdge) : List GraphEdge :=
  (l.foldl upsertByTarget []).map Prod.snd

/-- The descendant-promoted dependencies of a hierarchical node: DEPENDS_ON
edges from descendants whose target's same-type ancestor lies outside this
node's subtree. -/
def descendantDeps (g : RoadmapGraph) (nodeId : String) (node : GraphNode) :
    List GraphEdge :=
  if node.type == NodeType.pillar || node.type == NodeType.initiative ||
      node.type == NodeType.problem then
    let descendants := getAllDescendants g nodeId
    let descendantSet := nodeId :: descendants
    descendants.flatMap (fun descId =>
      (depOut g descId).filter (fun e =>
        match findAncestorOfType g (g.nodes.length + 1) (some e.target) node.type with
        | none => false
        | some targetAncestor =>
          !(targetAncestor == nodeId) && !(descendantSet.contains e.target)))
  else []

/-- Source `getAllDependencies`: direct, then ancestor-inherited, then
descendant-promoted DEPENDS_ON edges, deduplicated by target. -/
def getAllDependencies (g : RoadmapGraph) (nodeId : String) : List GraphEdge :=
  let directDeps := depOut g nodeId
  let inheritedDeps := inheritedDepsAux g (g.nodes.length + 1) (mapGet g.nodes nodeId)
  let descDeps :=
    match mapGet g.nodes nodeId with
    | none => []
    | some node => descendantDeps g nodeId node
  dedupByTarget (directDeps ++ inheritedDeps ++ descDeps)

/-- Source `isReady`: every resolved dependency target is completed. -/
def isReady (g : RoadmapGraph) (nodeId : String) : Bool :=
  (getAllDependencies g nodeId).all (fun e => isCompleted g e.target)

/-- Source `getEffectiveEffort`: 0 for unknown or completed nodes or zero base
effort, else `round(baseEffort × ∏ (1 − factor))` over incoming FACILITATES
edges with completed source and truthy factor. -/
def getEffectiveEffort (g : RoadmapGraph) (nodeId : String) : ℚ :=
  match mapGet g.nodes nodeId with
  | none => 0
  | some node =>
    if isCompleted g nodeId then 0
    else
      let baseEffort := node.baseEffort.getD 0
      if baseEffort = 0 then 0
      else
        let facilitators := (incoming g nodeId).filter (fun e => e.type == EdgeType.FACILITATES)
        let reductionMultiplier := facilitators.foldl
          (fun m e =>
            if isCompleted g e.source && !(e.factor.getD 0 == 0) then
              m * (1 - e.factor.getD 0)
            else m) 1
        jsRound (baseEffort * reductionMultiplier)

/-- Source `getBaseUncertainty` = `node?.baseUncertainty ?? 0`. -/
def getBaseUncertainty (g : RoadmapGraph) (nodeId : String) : ℚ :=
  ((mapGet g.nodes nodeId).bind GraphNode.baseUncertainty).getD 0

/-- Source `getAdjustedUncertainty`: base × ∏(1 − factor) over incoming INFORMS
edges with completed source (base returned unchanged when no informers). -/
def getAdjustedUncertainty (g : RoadmapGraph) (nodeId : String) : ℚ :=
  let baseUncertainty := getBaseUncertainty g nodeId
  if baseUncertainty = 0 then 0
  else
    let informers := (incoming g nodeId).filter (fun e => e.type == EdgeType.INFORMS)
    if informers.isEmpty then baseUncertainty
    else
      baseUncertainty *
        informers.foldl
          (fun m e =>
            if isCompleted g e.source && !(e.factor.getD 0 == 0) then
              m * (1 - e.factor.getD 0)
            else m) 1

/-- Source `getAdjustedEffort` = effectiveEffort × (1 + adjustedUncertainty). -/
def getAdjustedEffort (g : RoadmapGraph) (nodeId : String) : ℚ :=
  getEffectiveEffort g nodeId * (1 + getAdjustedUncertainty g nodeId)

/-- Source `getBaseRisk` = `node?.baseRisk ?? 0`. -/
def getBaseRisk (g : RoadmapGraph) (nodeId : String) : ℚ :=
  ((mapGet g.nodes nodeId).bind GraphNode.baseRisk).getD 0

/-- Source `getAdjustedRisk`: baseRisk × ∏(1 − factor) over incoming DERISKS edges
with completed source. -/
def getAdjustedRisk (g : RoadmapGraph) (nodeId : String) : ℚ :=
  let baseRisk := getBaseRisk g nodeId
  if baseRisk = 0 then 0
  else
    let deriskers := (incoming g nodeId).filter (fun e => e.type == EdgeType.DERISKS)
    if deriskers.isEmpty then baseRisk
    else
      baseRisk *
        deriskers.foldl
          (fun m e =>
            if isCompleted g e.source && !(e.factor.getD 0 == 0) then
              m * (1 - e.factor.getD 0)
            else m) 1

/-- Source `getSafetyFactor` = 1 − adjustedRisk. -/
def getSafetyFactor (g : RoadmapGraph) (nodeId : String) : ℚ :=
  1 - getAdjustedRisk g nodeId

/-- Source `computeReadiness`: 0 if completed, 1 if no incoming DEPENDS_ON edges,
else `1 / (unmetDeps + 1)` where the source's "unmet" filter tests
`!isCompleted(e.target)` (the edge's target, i.e. the node itself). -/
def computeReadiness (g : RoadmapGraph) (nodeId : String) : ℚ :=
  if isCompleted g nodeId then 0
  else
    let deps := (incoming g nodeId).filter (fun e => e.type == EdgeType.DEPENDS_ON)
    if deps.isEmpty then 1
    else
      let unmetDeps := (deps.filter (fun e => !(isCompleted g e.target))).length
      1 / (unmetDeps + 1)

/-- A `nowReady` entry of a `CompletionImpact`. -/
structure ReadyEntry where
  id : String
  title : String
  effort : ℚ
  deriving DecidableEq

/-- An `effortReductions` entry of a `CompletionImpact`. -/
structure EffortReduction where
  id : String
  title : String
  oldEffort : ℚ
  newEffort : ℚ
  reason : Option String
  deriving DecidableEq

/-- A `riskReductions` entry of a `CompletionImpact`. -/
structure RiskReduction where
  id : String
  title : String
  oldRisk : ℚ
  newRisk : ℚ
  effort : ℚ
  deriving DecidableEq

/-- The impact record returned by `markCompleted` / `previewCompletion`. -/
structure CompletionImpact where
  nodeId : String
  nodeTitle : String
  nowReady : List ReadyEntry
  effortReductions : List EffortReduction
  riskReductions : List RiskReduction
  totalEffortUnblocked : ℚ
  totalEffortSaved : ℚ
  totalRiskReduced : ℚ
  deriving DecidableEq

/-- The per-node update performed by a `node.status = st` assignment. -/
def statusF (id : String) (st : NodeStatus) (n : GraphNode) : GraphNode :=
  if n.id == id then { n with status := some st } else n

/-- Source `node.status = st` on the node map: the map's value object for that key
is mutated in place (observationally, every stored node with that id). -/
def setStatus (l : List GraphNode) (id : String) (st : NodeStatus) : List GraphNode :=
  l.map (statusF id st)

/-- The `nowReady` scan shared by `markCompleted`/`previewCompletion`: over
the sources of the node's incoming DEPENDS_ON edges, on state `g'`. -/
def nowReadyScan (g' : RoadmapGraph) (wasDependedOnBy : List String) : List ReadyEntry :=
  wasDependedOnBy.foldl
    (fun acc dependentId =>
      if isReady g' dependentId && !(isCompleted g' dependentId) then
        match mapGet g'.nodes dependentId with
        | some depNode =>
          acc ++ [⟨dependentId, depNode.title, getEffectiveEffort g' dependentId⟩]
        | none => acc
      else acc) []

/-- Source `markCompleted`: throws Not-Found for an unknown id; otherwise adds the
id to the completed set, sets its status to done, and reports the impact
(newly ready dependents, FACILITATES effort drops, DERISKS risk drops beyond
the 0.01 epsilon). -/
def markCompleted (g : RoadmapGraph) (nodeId : String) :
    Except String (CompletionImpact × RoadmapGraph) :=
  match mapGet g.nodes nodeId with
  | none => Except.error ("Node not found: " ++ nodeId)
  | some node =>
    let beforeEffort := fun id => getEffectiveEffort g id
    let beforeRisk := fun id => getAdjustedRisk g id
    let wasDependedOnBy :=
      ((incoming g nodeId).filter (fun e => e.type == EdgeType.DEPENDS_ON)).map
        (fun e => e.source)
    let g1 : RoadmapGraph :=
      { g with
        completedNodes := setAdd g.completedNodes nodeId
        nodes := setStatus g.nodes nodeId NodeStatus.done }
    let nowReady := nowReadyScan g1 wasDependedOnBy
    let facilitatesEdges :=
      (outgoing g1 nodeId).filter (fun e => e.type == EdgeType.FACILITATES)
    let effortReductions := facilitatesEdges.foldl
      (fun acc edge =>
        if isCompleted g1 edge.target then acc
        else
          match mapGet g1.nodes edge.target with
          | none => acc
          | some targetNode =>
            let oldEffort := beforeEffort edge.target
            let newEffort := getEffectiveEffort g1 edge.target
            if newEffort < oldEffort then
              acc ++ [⟨edge.target, targetNode.title, oldEffort, newEffort, edge.note⟩]
            else acc) []
    let derisksEdges :=
      (outgoing g1 nodeId).filter (fun e => e.type == EdgeType.DERISKS)
    let riskReductions := derisksEdges.foldl
      (fun acc edge =>
        if isCompleted g1 edge.target then acc
        else
          match mapGet g1.nodes edge.target with
          | none => acc
          | some targetNode =>
            let oldRisk := beforeRisk edge.target
            let newRisk := getAdjustedRisk g1 edge.target
            if newRisk < oldRisk - 1/100 then
              acc ++ [⟨edge.target, targetNode.title, oldRisk, newRisk,
                       getEffectiveEffort g1 edge.target⟩]
            else acc) []
    let totalEffortUnblocked := nowReady.foldl (fun s r => s + r.effort) 0
    let totalEffortSaved :=
      effortReductions.foldl (fun s r => s + (r.oldEffort - r.newEffort)) 0
    let totalRiskReduced :=
      riskReductions.foldl (fun s r => s + (r.oldRisk - r.newRisk) * r.effort) 0
    Except.ok
      (⟨nodeId, node.title, nowReady, effortReductions, riskReductions,
        totalEffortUnblocked, totalEffortSaved, totalRiskReduced⟩, g1)

/-- Source `markIncomplete`: silently does nothing for an unknown id; otherwise
removes the id from the completed set and resets its status to backlog. -/
def markIncomplete (g : RoadmapGraph) (nodeId : String) : RoadmapGraph :=
  match mapGet g.nodes nodeId with
  | none => g
  | some _ =>
    { g with
      completedNodes := setDel g.completedNodes nodeId
      nodes := setStatus g.nodes nodeId NodeStatus.backlog }

/-- The engine with its completed-set replaced (the other state never
changes during `previewCompletion`). -/
def withCompleted (g : RoadmapGraph) (c : List String) : RoadmapGraph :=
  { g with completedNodes := c }

/-- One iteration of `previewCompletion`'s FACILITATES loop: skip completed
or unknown targets; otherwise read the old effort on the current set, add
the node, read the new effort, then *delete the node from the set*. -/
def previewEffortStep (g : RoadmapGraph) (nodeId : String)
    (st : List String × List EffortReduction) (edge : GraphEdge) :
    List String × List EffortReduction :=
  if isCompleted (withCompleted g st.1) edge.target then st
  else
    match mapGet g.nodes edge.target with
    | none => st
    | some targetNode =>
      let oldEffort := getEffectiveEffort (withCompleted g st.1) edge.target
      let cAdd := setAdd st.1 nodeId
      let newEffort := getEffectiveEffort (withCompleted g cAdd) edge.target
      let cDel := setDel cAdd nodeId
      (cDel,
        if newEffort < oldEffort then
          st.2 ++ [⟨edge.target, targetNode.title, oldEffort, newEffort, edge.note⟩]
        else st.2)

/-- One iteration of `previewCompletion`'s DERISKS loop (same add/delete
toggling; the reported effort is read after the delete). -/
def previewRiskStep (g : RoadmapGraph) (nodeId : String)
    (st : List String × List RiskReduction) (edge : GraphEdge) :
    List String × List RiskReduction :=
  if isCompleted (withCompleted g st.1) edge.target then st
  else
    match mapGet g.nodes edge.target with
    | none => st
    | some targetNode =>
      let oldRisk := getAdjustedRisk (withCompleted g st.1) edge.target
      let cAdd := setAdd st.1 nodeId
      let newRisk := getAdjustedRisk (withCompleted g cAdd) edge.target
      let cDel := setDel cAdd nodeId
      (cDel,
        if newRisk < oldRisk - 1/100 then
          st.2 ++ [⟨edge.target, targetNode.title, oldRisk, newRisk,
                    getEffectiveEffort (withCompleted g cDel) edge.target⟩]
        else st.2)

/-- Source `previewCompletion`: computes a `CompletionImpact` like `markCompleted`
by temporarily toggling the completed set, then runs the final
`if (wasCompleted) completedNodes.add(nodeId)` restore step.  The resulting
engine state is returned alongside the impact record. -/
def previewCompletion (g : RoadmapGraph) (nodeId : String) :
    CompletionImpact × RoadmapGraph :=
  let wasCompleted := isCompleted g nodeId
  let c0 := if !wasCompleted then setAdd g.completedNodes nodeId else g.completedNodes
  let node := mapGet g.nodes nodeId
  let wasDependedOnBy :=
    ((incoming g nodeId).filter (fun e => e.type == EdgeType.DEPENDS_ON)).map
      (fun e => e.source)
  let nowReady := nowReadyScan (withCompleted g c0) wasDependedOnBy
  let facilitatesEdges :=
    (outgoing g nodeId).filter (fun e => e.type == EdgeType.FACILITATES)
  let stE := facilitatesEdges.foldl (previewEffortStep g nodeId) (c0, [])
  let derisksEdges :=
    (outgoing g nodeId).filter (fun e => e.type == EdgeType.DERISKS)
  let stR := derisksEdges.foldl (previewRiskStep g nodeId) (stE.1, [])
  let cFinal := if wasCompleted then setAdd stR.1 nodeId else stR.1
  let totalEffortUnblocked := nowReady.foldl (fun s r => s + r.effort) 0
  let totalEffortSaved :=
    stE.2.foldl (fun s r => s + (r.oldEffort - r.newEffort)) 0
  let totalRiskReduced :=
    stR.2.foldl (fun s r => s + (r.oldRisk - r.newRisk) * r.effort) 0
  (⟨nodeId, ((node.map (fun n => n.title)).getD nodeId), nowReady, stE.2, stR.2,
    totalEffortUnblocked, totalEffortSaved, totalRiskReduced⟩,
   withCompleted g cFinal)

/-- Source `getInDegree`. -/
def getInDegree (g : RoadmapGraph) (nodeId : String) : Nat :=
  (incoming g nodeId).length

/-- Source `getOutDegree`. -/
def getOutDegree (g : RoadmapGraph) (nodeId : String) : Nat :=
  (outgoing g nodeId).length

/-- Source `getDependsOnCount`. -/
def getDependsOnCount (g : RoadmapGraph) (nodeId : String) : Nat :=
  (getAllDependencies g nodeId).length

/-- Source `getDependedOnByCount`. -/
def getDependedOnByCount (g : RoadmapGraph) (nodeId : String) : Nat :=
  ((incoming g nodeId).filter (fun e => e.type == EdgeType.DEPENDS_ON)).length

/-- Source `getWeightedBlockingCount`: each directly blocked dependent counts 1
plus its number of descendants. -/
def getWeightedBlockingCount (g : RoadmapGraph) (nodeId : String) : Nat :=
  (((incoming g nodeId).filter (fun e => e.type == EdgeType.DEPENDS_ON)).map
      (fun e => e.source)).foldl
    (fun total blockedNodeId => total + 1 + (getAllDescendants g blockedNodeId).length) 0

/-- Source `getFacilitatesCount`. -/
def getFacilitatesCount (g : RoadmapGraph) (nodeId : String) : Nat :=
  ((outgoing g nodeId).filter (fun e => e.type == EdgeType.FACILITATES)).length

/-- Source `getDirectEffort` delegates to `getEffectiveEffort`. -/
def getDirectEffort (g : RoadmapGraph) (nodeId : String) : ℚ :=
  getEffectiveEffort g nodeId

/-- Source `getTotalEffort` recursion: solutions report effective effort, other
nodes sum their children; completed or unknown nodes report 0.  Fuel
dominates tree depth on acyclic-parent input. -/
def getTotalEffortAux (g : RoadmapGraph) : Nat → String → ℚ
  | 0, _ => 0
  | fuel + 1, nodeId =>
    match mapGet g.nodes nodeId with
    | none => 0
    | some node =>
      if isCompleted g nodeId then 0
      else if node.type == NodeType.solution then getEffectiveEffort g nodeId
      else
        (childrenOf g nodeId).foldl
          (fun sum childId => sum + getTotalEffortAux g fuel childId) 0

/-- Source `getTotalEffort`. -/
def getTotalEffort (g : RoadmapGraph) (nodeId : String) : ℚ :=
  getTotalEffortAux g (g.nodes.length + 1) nodeId

/-- Source `getDownstreamEffort`'s BFS loop over the reverse DEPENDS_ON relation:
`visited` is only extended on dequeue, and each not-yet-visited source found
on an edge adds its total effort and is enqueued.  Fuel dominates the number
of dequeues (at most one initial push plus one push per edge). -/
def downstreamAux (g : RoadmapGraph) :
    Nat → List String → List String → ℚ → ℚ
  | 0, _, _, total => total
  | _ + 1, [], _, total => total
  | fuel + 1, current :: queue, visited, total =>
    if visited.contains current then downstreamAux g fuel queue visited total
    else
      let visited' := setAdd visited current
      let dependentEdges :=
        (incoming g current).filter (fun e => e.type == EdgeType.DEPENDS_ON)
      let st := dependentEdges.foldl
        (fun (p : List String × ℚ) e =>
          if visited'.contains e.source then p
          else (p.1 ++ [e.source], p.2 + getTotalEffort g e.source))
        (queue, total)
      downstreamAux g fuel st.1 visited' st.2

/-- Source `getDownstreamEffort`. -/
def getDownstreamEffort (g : RoadmapGraph) (nodeId : String) : ℚ :=
  downstreamAux g (g.edges.length + g.nodes.length + 2) [nodeId] [] 0

/-- Source `computeLeverage` = downstreamEffort / ownEffort (0 when own is 0). -/
def computeLeverage (g : RoadmapGraph) (nodeId : String) : ℚ :=
  let ownEffort := getTotalEffort g nodeId
  if ownEffort = 0 then 0 else getDownstreamEffort g nodeId / ownEffort

/-- The dependency-target set `deps.get(id)` of `computeTopologicalLevels`
(the engine only queries entries of node keys). -/
def depTargets (g : RoadmapGraph) (id : String) : List String :=
  ((g.edges.filter (fun e => e.type == EdgeType.DEPENDS_ON)).filter
      (fun e => e.source == id)).map (fun e => e.target)

/-- The peeling loop of `computeTopologicalLevels`: nodes whose dependency
targets are all already computed get the current level; a pass that peels
nothing assigns the current level to every remaining node and stops.  Fuel
dominates the pass count (each productive pass computes ≥ 1 node). -/
def topoLoopAux (g : RoadmapGraph) :
    Nat → List String → List (String × Nat) → Nat → List (String × Nat)
  | 0, _, levels, _ => levels
  | fuel + 1, computed, levels, currentLevel =>
    if computed.length < (mapKeys g.nodes).length then
      let thisLevel := (mapKeys g.nodes).filter
        (fun nodeId =>
          !(computed.contains nodeId) &&
            ((depTargets g nodeId).all (fun d => computed.contains d) ||
              (depTargets g nodeId).isEmpty))
      if thisLevel.isEmpty then
        levels ++
          ((mapKeys g.nodes).filter (fun nodeId => !(computed.contains nodeId))).map
            (fun nodeId => (nodeId, currentLevel))
      else
        topoLoopAux g fuel (computed ++ thisLevel)
          (levels ++ thisLevel.map (fun nodeId => (nodeId, currentLevel)))
          (currentLevel + 1)
    else levels

/-- Source `computeTopologicalLevels` (as the association list of the levels map,
each node id assigned at most once). -/
def computeTopologicalLevels (g : RoadmapGraph) : List (String × Nat) :=
  topoLoopAux g ((mapKeys g.nodes).length + 1) [] [] 0

/-- Source `enablesMap.get(id)?.length`: per node key, the count of DEPENDS_ON
edges targeting it plus FACILITATES edges leaving it. -/
def enablesCount (g : RoadmapGraph) (id : String) : Nat :=
  (g.edges.filter (fun e =>
      (e.type == EdgeType.DEPENDS_ON && e.target == id) ||
        (e.type == EdgeType.FACILITATES && e.source == id))).length

/-- Source `scores.get(id) ?? 0` over the scores association list. -/
def scoreGet (s : List (String × ℚ)) (id : String) : ℚ :=
  ((s.find? (fun p => p.1 == id)).map Prod.snd).getD 0

/-- One power-iteration round: every node's new score is `(1−d)/n` plus, per
incoming DEPENDS_ON edge, `d × score(edge.target)/max(outdeg(edge.target),1)`
(the source reads the score at `edge.target`, which is the node itself). -/
def influenceStep (g : RoadmapGraph) (damping : ℚ) (s : List (String × ℚ)) :
    List (String × ℚ) :=
  let n : ℚ := ((mapKeys g.nodes).length : ℚ)
  (mapKeys g.nodes).map (fun nodeId =>
    (nodeId,
      ((incoming g nodeId).filter (fun e => e.type == EdgeType.DEPENDS_ON)).foldl
        (fun score e =>
          score + damping * (scoreGet s e.target / ((max (enablesCount g e.target) 1 : Nat) : ℚ)))
        ((1 - damping) / n)))

/-- The iterated scores, seeded at `1/n` for every node. -/
def influenceIter (g : RoadmapGraph) (damping : ℚ) : Nat → List (String × ℚ)
  | 0 => (mapKeys g.nodes).map (fun id => (id, 1 / ((mapKeys g.nodes).length : ℚ)))
  | k + 1 => influenceStep g damping (influenceIter g damping k)

/-- Source `computeInfluenceScores` (defaults: 20 iterations, damping 0.85): run
the fixed number of rounds, then normalize by `Math.max(...values)` when
that maximum is positive. -/
def computeInfluenceScores (g : RoadmapGraph) (iterations : Nat) (damping : ℚ) :
    List (String × ℚ) :=
  let final := influenceIter g damping iterations
  match final.map Prod.snd with
  | [] => final
  | v :: vs =>
    let maxScore := vs.foldl max v
    if 0 < maxScore then final.map (fun p => (p.1, p.2 / maxScore)) else final

/-- Source `computeRiskMitigationValue`: Σ factor × effectiveEffort(target) ×
adjustedRisk(target) over outgoing DERISKS edges, skipping completed targets
and everything once the node itself is completed. -/
def computeRiskMitigationValue (g : RoadmapGraph) (nodeId : String) : ℚ :=
  let deriskedEdges := (outgoing g nodeId).filter (fun e => e.type == EdgeType.DERISKS)
  if deriskedEdges.isEmpty then 0
  else
    deriskedEdges.foldl
      (fun totalValue edge =>
        if isCompleted g edge.target then totalValue
        else if isCompleted g nodeId then totalValue
        else
          match mapGet g.nodes edge.target with
          | none => totalValue
          | some _ =>
            totalValue +
              edge.factor.getD 0 * getEffectiveEffort g edge.target *
                getAdjustedRisk g edge.target) 0

/-- Source `getAllNodes`: the node map's values in key order. -/
def getAllNodes (g : RoadmapGraph) : List GraphNode :=
  (mapKeys g.nodes).filterMap (mapGet g.nodes)

/-- Source `getNodesByType`. -/
def getNodesByType (g : RoadmapGraph) (t : NodeType) : List GraphNode :=
  (getAllNodes g).filter (fun n => n.type == t)

/-- A derived (cross-cutting) edge. -/
structure DerivedEdge where
  source : String
  target : String
  type : EdgeType
  weight : Nat
  childEdges : List String
  deriving DecidableEq

/-- The string name of an edge type (used in the `${targetParent}:${type}`
group keys of `computeDerivedEdges`). -/
def edgeTypeStr : EdgeType → String
  | EdgeType.DEPENDS_ON => "DEPENDS_ON"
  | EdgeType.FACILITATES => "FACILITATES"
  | EdgeType.DERISKS => "DERISKS"
  | EdgeType.INFORMS => "INFORMS"
  | EdgeType.NEEDS_COORDINATION => "NEEDS_COORDINATION"
  | EdgeType.RELATES_TO => "RELATES_TO"

/-- A `edgeGroups` entry of `computeDerivedEdges`. -/
structure DerivedGroup where
  targetParentId : String
  type : EdgeType
  childEdgeIds : List String
  deriving DecidableEq

/-- Create-or-append on the `edgeGroups` map. -/
def groupAdd (acc : List (String × DerivedGroup)) (key targetParent : String)
    (tp : EdgeType) (edgeId : String) : List (String × DerivedGroup) :=
  if acc.any (fun p => p.1 == key) then
    acc.map (fun p =>
      if p.1 == key then (p.1, { p.2 with childEdgeIds := p.2.childEdgeIds ++ [edgeId] })
      else p)
  else acc ++ [(key, ⟨targetParent, tp, [edgeId]⟩)]

/-- Source `computeDerivedEdges`: per parent of the chosen type, group the outgoing
edges of its descendants by (same-type ancestor of the target, edge type),
keeping only groups that cross to a different parent. -/
def computeDerivedEdges (g : RoadmapGraph) (nodeType : NodeType) : List DerivedEdge :=
  (getNodesByType g nodeType).flatMap (fun parent =>
    let descendants := getAllDescendants g parent.id
    let groups := descendants.foldl
      (fun acc descId =>
        (outgoing g descId).foldl
          (fun acc edge =>
            match mapGet g.nodes edge.target with
            | none => acc
            | some _ =>
              match findAncestorOfType g (g.nodes.length + 1) (some edge.target) nodeType with
              | none => acc
              | some targetParent =>
                if targetParent == parent.id then acc
                else
                  groupAdd acc (targetParent ++ ":" ++ edgeTypeStr edge.type)
                    targetParent edge.type edge.id) acc) []
    groups.map (fun p =>
      DerivedEdge.mk parent.id p.2.targetParentId p.2.type
        p.2.childEdgeIds.length p.2.childEdgeIds))

/-- Source `getCrossCuttingEdges`: the derived edges touching one node. -/
def getCrossCuttingEdges (g : RoadmapGraph) (nodeId : String) : List DerivedEdge :=
  match mapGet g.nodes nodeId with
  | none => []
  | some node =>
    (computeDerivedEdges g node.type).filter
      (fun e => e.source == nodeId || e.target == nodeId)

/-- The per-node metrics bundle of `computeAllMetrics`.  The source's
`priorityScore` field is omitted: it is computed with the transcendental
`Math.log` (not expressible as an executable ℚ computation) and no claim
refers to it. -/
structure NodeMetrics where
  id : String
  title : String
  type : NodeType
  inDegree : Nat
  outDegree : Nat
  dependsOnCount : Nat
  dependedOnByCount : Nat
  weightedBlockingCount : Nat
  facilitatesCount : Nat
  directEffort : ℚ
  totalEffort : ℚ
  uncertainty : ℚ
  adjustedEffort : ℚ
  baseRisk : ℚ
  adjustedRisk : ℚ
  riskMitigationValue : ℚ
  readiness : ℚ
  leverage : ℚ
  safetyFactor : ℚ
  topoLevel : Nat
  influenceScore : ℚ
  crossCuttingEdges : Option (List DerivedEdge)
  deriving DecidableEq

/-- Source `computeAllMetrics`: one record per node map entry, in key order.  Note
`adjustedEffort := directEffort * uncertainty` exactly as in the source. -/
def computeAllMetrics (g : RoadmapGraph) : List NodeMetrics :=
  let topoLevels := computeTopologicalLevels g
  let influenceScores := computeInfluenceScores g 20 (85/100)
  (mapKeys g.nodes).filterMap (fun nodeId =>
    (mapGet g.nodes nodeId).map (fun node =>
      let directEffort := getDirectEffort g nodeId
      let uncertainty := getAdjustedUncertainty g nodeId
      { id := nodeId
        title := node.title
        type := node.type
        inDegree := getInDegree g nodeId
        outDegree := getOutDegree g nodeId
        dependsOnCount := getDependsOnCount g nodeId
        dependedOnByCount := getDependedOnByCount g nodeId
        weightedBlockingCount := getWeightedBlockingCount g nodeId
        facilitatesCount := getFacilitatesCount g nodeId
        directEffort := directEffort
        totalEffort := getTotalEffort g nodeId
        uncertainty := uncertainty
        adjustedEffort := directEffort * uncertainty
        baseRisk := getBaseRisk g nodeId
        adjustedRisk := getAdjustedRisk g nodeId
        riskMitigationValue := computeRiskMitigationValue g nodeId
        readiness := computeReadiness g nodeId
        leverage := computeLeverage g nodeId
        safetyFactor := getSafetyFactor g nodeId
        topoLevel := (((topoLevels.find? (fun p => p.1 == nodeId)).map Prod.snd).getD 0)
        influenceScore := scoreGet influenceScores nodeId
        crossCuttingEdges :=
          if node.type == NodeType.pillar || node.type == NodeType.initiative ||
              node.type == NodeType.problem then
            some (getCrossCuttingEdges g nodeId)
          else none }))

/-- The DFS state of `findCycles`: visited set, recursion stack, current
path and collected cycles. -/
structure DfsState where
  visited : List String
  recStack : List String
  path : List String
  cycles : List (List String)
  deriving DecidableEq

/-- One `dfs(nodeId)` call of `findCycles`: a successor on the recursion
stack records the stack slice from its first occurrence on the path plus the
revisited node; unvisited successors are explored recursively.  Fuel
dominates the recursion depth (bounded by the number of distinct nodes). -/
def dfsVisit (g : RoadmapGraph) : Nat → String → DfsState → DfsState
  | 0, _, st => st
  | fuel + 1, nodeId, st =>
    let st0 : DfsState :=
      { st with
        visited := setAdd st.visited nodeId
        recStack := setAdd st.recStack nodeId
        path := st.path ++ [nodeId] }
    let st1 := (depOut g nodeId).foldl
      (fun (st : DfsState) edge =>
        if st.visited.contains edge.target then
          if st.recStack.contains edge.target then
            let cycleStart := st.path.findIdx (fun x => x == edge.target)
            { st with cycles := st.cycles ++ [st.path.drop cycleStart ++ [edge.target]] }
          else st
        else dfsVisit g fuel edge.target st) st0
    { st1 with path := st1.path.dropLast, recStack := setDel st1.recStack nodeId }

/-- Source `findCycles`: run the DFS from every not-yet-visited node in key order
and report the collected cycles. -/
def findCycles (g : RoadmapGraph) : List (List String) :=
  ((mapKeys g.nodes).foldl
    (fun (st : DfsState) nodeId =>
      if st.visited.contains nodeId then st
      else dfsVisit g (mapKeys g.nodes).length nodeId st)
    ⟨[], [], [], []⟩).cycles

/-- Source `node?.baseEffort ?? 0`. -/
def baseEffortOf (g : RoadmapGraph) (n : String) : ℚ :=
  ((mapGet g.nodes n).bind GraphNode.baseEffort).getD 0

/-- The engine state after `markCompleted` (the prior state when it throws). -/
def afterComplete (g : RoadmapGraph) (nodeId : String) : RoadmapGraph :=
  match markCompleted g nodeId with
  | Except.ok p => p.2
  | Except.error _ => g

/-! ## Concrete scenario graphs used by witnesses and counterexamples -/

/-- A lone incomplete solution node `A` (baseEffort 5), no edges. -/
def gLone : RoadmapGraph :=
  initGraph
    ⟨[⟨"A", NodeType.solution, "Task A", none, some NodeStatus.backlog,
        some 5, some 0, some 0⟩], []⟩

/-- A lone already-done solution node `X` (baseEffort 5). -/
def gDoneX : RoadmapGraph :=
  initGraph
    ⟨[⟨"X", NodeType.solution, "Task X", none, some NodeStatus.done,
        some 5, some 0, some 0⟩], []⟩

/-- Source `A` (done) and `B` (incomplete solution) with one DEPENDS_ON edge
`A → B` (A depends on B). -/
def gDep : RoadmapGraph :=
  initGraph
    ⟨[⟨"A", NodeType.solution, "Task A", none, some NodeStatus.done,
        some 2, some 0, some 0⟩,
      ⟨"B", NodeType.solution, "Task B", none, some NodeStatus.backlog,
        some 3, some 0, some 0⟩],
     [⟨"e1", "A", "B", EdgeType.DEPENDS_ON, none, none⟩]⟩

/-- A lone incomplete solution node `A` with baseEffort 8 and
baseUncertainty 1/2. -/
def gUnc : RoadmapGraph :=
  initGraph
    ⟨[⟨"A", NodeType.solution, "Task A", none, some NodeStatus.backlog,
        some 8, some 0, some (1/2)⟩], []⟩

/-- The effective-effort scenario: `A` (baseEffort 8), `B` done, edge
`B → A` of type FACILITATES with factor 0.625. -/
def gFac : RoadmapGraph :=
  initGraph
    ⟨[⟨"A", NodeType.solution, "Task A", none, some NodeStatus.backlog,
        some 8, some 0, some 0⟩,
      ⟨"B", NodeType.solution, "Task B", none, some NodeStatus.done,
        some 2, some 0, some 0⟩],
     [⟨"e1", "B", "A", EdgeType.FACILITATES, some (5/8), none⟩]⟩

/-- The cycle scenario: edges `A → B` and `B → A`, both DEPENDS_ON. -/
def gCycle : RoadmapGraph :=
  initGraph
    ⟨[⟨"A", NodeType.solution, "Task A", none, some NodeStatus.backlog,
        some 2, some 0, some 0⟩,
      ⟨"B", NodeType.solution, "Task B", none, some NodeStatus.backlog,
        some 3, some 0, some 0⟩],
     [⟨"e1", "A", "B", EdgeType.DEPENDS_ON, none, none⟩,
      ⟨"e2", "B", "A", EdgeType.DEPENDS_ON, none, none⟩]⟩

/-- C1: `previewCompletion` does NOT leave the completed set identical: on a
lone incomplete node with no outgoing FACILITATES/DERISKS edges, the id is
temporarily added but never removed, so after the call the node is completed
and its effective effort (a derived metric) has changed from 5 to 0.  This
contradicts the function's own documentation ("without actually completing
it" / "Restore original state"). -/
theorem C1_previewCompletion_state_bug :
    isCompleted gLone "A" = false ∧
    getEffectiveEffort gLone "A" = 5 ∧
    isCompleted (previewCompletion gLone "A").2 "A" = true ∧
    getEffectiveEffort (previewCompletion gLone "A").2 "A" = 0 := by
  refine ⟨rfl, ?_, rfl, ?_⟩ <;> decide

/-- C7: on the two-node DEPENDS_ON cycle `A → B`, `B → A`, `findCycles`
returns a (non-empty) cycle containing both `A` and `B`, and
`computeTopologicalLevels` (a total function) assigns every node a defined
level, with both cycle members at the same level 0. -/
theorem C7_cycle_scenario :
    (∃ c ∈ findCycles gCycle, "A" ∈ c ∧ "B" ∈ c) ∧
    ((computeTopologicalLevels gCycle).find? (fun p => p.1 == "A")).map Prod.snd
      = some 0 ∧
    ((computeTopologicalLevels gCycle).find? (fun p => p.1 == "B")).map Prod.snd
      = some 0 := by
  refine ⟨⟨["A", "B", "A"], ?_, ?_, ?_⟩, ?_, ?_⟩ <;> decide

/-! ## Generic lemmas about the JS-style set/map helpers -/

theorem mem_setAdd {s : List String} {x y : String} :
    y ∈ setAdd s x ↔ y ∈ s ∨ y = x := by
  unfold setAdd
  split
  · rename_i h
    have hx : x ∈ s := by simpa using h
    constructor
    · exact fun hy => Or.inl hy
    · rintro (hy | rfl)
      · exact hy
      · exact hx
  · simp

/-- Membership in the constructor's completed-set fold. -/
theorem completedSeed_mem (l : List GraphNode) (s : List String) (id : String) :
    (id ∈ l.foldl
        (fun s n => if n.status == some NodeStatus.done then setAdd s n.id else s) s) ↔
      id ∈ s ∨ ∃ n ∈ l, n.id = id ∧ n.status = some NodeStatus.done := by
  induction l generalizing s with
  | nil => simp
  | cons a l ih =>
    simp only [List.foldl_cons, ih]
    by_cases h : a.status = some NodeStatus.done
    · simp [h, mem_setAdd] <;> tauto
    · simp [h] <;> tauto

/-- C10: immediately after construction, `isCompleted(id)` holds exactly for
ids carried by an input node whose `status` is `"done"` — the completion
state is seeded from node status, not empty. -/
theorem C10_initial_completion_seeding (data : GraphData) (id : String) :
    isCompleted (initGraph data) id = true ↔
      ∃ n ∈ data.nodes, n.id = id ∧ n.status = some NodeStatus.done := by
  have h := completedSeed_mem data.nodes [] id
  simp only [List.not_mem_nil, false_or] at h
  simpa [isCompleted, initGraph] using h

/-! ## The resolver's dedup-by-target invariant (C9) -/

theorem upsertByTarget_inv (acc : List (String × GraphEdge)) (e : GraphEdge)
    (h1 : (acc.map Prod.fst).Nodup) (h2 : ∀ p ∈ acc, p.2.target = p.1) :
    ((upsertByTarget acc e).map Prod.fst).Nodup ∧
      ∀ p ∈ upsertByTarget acc e, p.2.target = p.1 := by
  unfold upsertByTarget
  split
  · refine ⟨?_, ?_⟩
    · have hkeys :
          (acc.map (fun p => if p.1 == e.target then (e.target, e) else p)).map Prod.fst
            = acc.map Prod.fst := by
        rw [List.map_map]
        apply List.map_congr_left
        intro p _
        by_cases hb : p.1 = e.target
        · simp [Function.comp_apply, hb]
        · simp [Function.comp_apply, hb]
      rw [hkeys]
      exact h1
    · intro p hp
      rw [List.mem_map] at hp
      obtain ⟨q, hq, rfl⟩ := hp
      by_cases hb : q.1 == e.target
      · simp [hb]
      · simp only [hb, if_false]
        exact h2 q hq
  · rename_i hany
    have hnot : e.target ∉ acc.map Prod.fst := by
      intro hmem
      rw [List.mem_map] at hmem
      obtain ⟨q, hq, hfst⟩ := hmem
      have : acc.any (fun p => p.1 == e.target) = true :=
        List.any_eq_true.mpr ⟨q, hq, by simp [hfst]⟩
      exact hany this
    refine ⟨?_, ?_⟩
    · rw [List.map_append]
      exact List.Nodup.append h1 (by simp) (by simpa using hnot)
    · intro p hp
      rcases List.mem_append.mp hp with hl | hr
      · exact h2 p hl
      · simp only [List.mem_singleton] at hr
        subst hr
        rfl

theorem dedupByTarget_targets_nodup (l : List GraphEdge) :
    ((dedupByTarget l).map (fun e => e.target)).Nodup := by
  suffices h : ∀ acc, (acc.map Prod.fst).Nodup → (∀ p ∈ acc, p.2.target = p.1) →
      (((l.foldl upsertByTarget acc).map Prod.snd).map (fun e => e.target)).Nodup by
    exact h [] (by simp) (by simp)
  induction l with
  | nil =>
    intro acc h1 h2
    simp only [List.foldl_nil]
    have hcol : (acc.map Prod.snd).map (fun e => e.target) = acc.map Prod.fst := by
      rw [List.map_map]
      apply List.map_congr_left
      intro p hp
      exact h2 p hp
    rw [hcol]
    exact h1
  | cons e l ih =>
    intro acc h1 h2
    simp only [List.foldl_cons]
    obtain ⟨h1', h2'⟩ := upsertByTarget_inv acc e h1 h2
    exact ih _ h1' h2'

/-- C9: for every graph state and every node id, the dependency resolver's
result contains no two edges with the same target id. -/
theorem C9_resolver_dedup (g : RoadmapGraph) (nodeId : String) :
    ((getAllDependencies g nodeId).map (fun e => e.target)).Nodup :=
  dedupByTarget_targets_nodup _

/-! ## C3: readiness -/

/-- C3 counterexample: in `gDep`, `B` has one incoming DEPENDS_ON edge whose
depending endpoint (source `A`) is completed, so the claim's unmet count `k`
is 0 and the claimed readiness is `1/(0+1) = 1`; the code returns `1/2`
(its "unmet" filter tests the edge's target — `B` itself — so every incoming
edge counts). -/
theorem C3_counterexample :
    isCompleted gDep "B" = false ∧
    ((incoming gDep "B").filter (fun e => e.type == EdgeType.DEPENDS_ON)).length = 1 ∧
    (((incoming gDep "B").filter (fun e => e.type == EdgeType.DEPENDS_ON)).filter
        (fun e => !(isCompleted gDep e.source))).length = 0 ∧
    computeReadiness gDep "B" = 1/2 ∧ (1/2 : ℚ) ≠ 1 / (0 + 1) := by
  refine ⟨rfl, rfl, rfl, ?_, ?_⟩ <;> decide

/-- C3 amended: readiness is 0 if the node is completed; 1 if it has no
incoming DEPENDS_ON edges; and otherwise `1/(d+1)` where `d` is the *total*
number of incoming DEPENDS_ON edges (the source's unmet filter tests the
edge target, i.e. the node itself, which is never completed in this branch,
so every incoming edge counts as unmet). -/
theorem C3_readiness_total_count (g : RoadmapGraph) (n : String) :
    (isCompleted g n = true → computeReadiness g n = 0) ∧
    (isCompleted g n = false →
      (incoming g n).filter (fun e => e.type == EdgeType.DEPENDS_ON) = [] →
      computeReadiness g n = 1) ∧
    (isCompleted g n = false →
      (incoming g n).filter (fun e => e.type == EdgeType.DEPENDS_ON) ≠ [] →
      computeReadiness g n =
        1 / ((((incoming g n).filter (fun e => e.type == EdgeType.DEPENDS_ON)).length : ℚ)
              + 1)) := by
  refine ⟨?_, ?_, ?_⟩
  · intro hc
    simp [computeReadiness, hc]
  · intro h1 h2
    simp [computeReadiness, h1, h2]
  · intro h1 h2
    have hmem : ∀ e ∈ (incoming g n).filter (fun e => e.type == EdgeType.DEPENDS_ON),
        e.target = n := by
      intro e he
      have he1 : e ∈ incoming g n := List.mem_of_mem_filter he
      unfold incoming at he1
      by_cases hn : hasNode g n = true
      · rw [if_pos hn] at he1
        simpa using (List.of_mem_filter he1)
      · rw [if_neg hn] at he1
        cases he1
    have hfull :
        ((incoming g n).filter (fun e => e.type == EdgeType.DEPENDS_ON)).filter
            (fun e => !(isCompleted g e.target))
          = (incoming g n).filter (fun e => e.type == EdgeType.DEPENDS_ON) :=
      List.filter_eq_self.mpr (fun e he => by rw [hmem e he, h1]; rfl)
    have hemp :
        ((incoming g n).filter (fun e => e.type == EdgeType.DEPENDS_ON)).isEmpty = false :=
      by simpa [List.isEmpty_iff] using h2
    simp only [computeReadiness, h1, Bool.false_eq_true, if_false, hemp, hfull]

/-- C3 witness: the three branches of the amended statement instantiated at
concrete inputs — the completed node `A` of `gDep` (readiness 0), the
dependency-free node `A` of `gLone` (readiness 1), and node `B` of `gDep`
with one incoming DEPENDS_ON edge from a completed source (readiness
`1/(1+1)`). -/
theorem C3_witness :
    (isCompleted gDep "A" = true ∧ computeReadiness gDep "A" = 0) ∧
    (isCompleted gLone "A" = false ∧
      (incoming gLone "A").filter (fun e => e.type == EdgeType.DEPENDS_ON) = [] ∧
      computeReadiness gLone "A" = 1) ∧
    (isCompleted gDep "B" = false ∧
      (incoming gDep "B").filter (fun e => e.type == EdgeType.DEPENDS_ON) ≠ [] ∧
      computeReadiness gDep "B" =
        1 / ((((incoming gDep "B").filter (fun e => e.type == EdgeType.DEPENDS_ON)).length : ℚ)
              + 1)) :=
  ⟨⟨by decide, (C3_readiness_total_count gDep "A").1 (by decide)⟩,
   ⟨by decide, by decide,
    (C3_readiness_total_count gLone "A").2.1 (by decide) (by decide)⟩,
   ⟨by decide, by decide,
    (C3_readiness_total_count gDep "B").2.2 (by decide) (by decide)⟩⟩

/-! ## C5: effective effort -/

/-- The engine's guarded compounding fold equals the spec's product
`∏ (1 − factor)` over the completed-source edges: an edge whose factor is
absent or 0 is skipped by the guard but contributes the factor `1 − 0 = 1`
to the product. -/
theorem reductionFold_eq_prod (g : RoadmapGraph) (l : List GraphEdge) (c : ℚ) :
    l.foldl
        (fun m e =>
          if isCompleted g e.source && !(e.factor.getD 0 == 0) then
            m * (1 - e.factor.getD 0)
          else m) c
      = c * ((l.filter (fun e => isCompleted g e.source)).map
              (fun e => 1 - e.factor.getD 0)).prod := by
  induction l generalizing c with
  | nil => simp
  | cons e l ih =>
    cases hA : isCompleted g e.source with
    | false => simp_all [List.foldl_cons, List.filter_cons]
    | true =>
      by_cases hB : e.factor.getD 0 = 0
      · simp_all [List.foldl_cons, List.filter_cons]
      · simp_all [List.foldl_cons, List.filter_cons]
        ring

/-- C5: effective effort is 0 for a completed node, and otherwise
`round(baseEffort × ∏(1 − factor))` over the incoming FACILITATES edges
whose source is completed; in the scenario graph (`baseEffort` 8, one
completed FACILITATES source with factor 0.625) it equals 3. -/
theorem C5_effective_effort :
    (∀ g n,
      (isCompleted g n = true → getEffectiveEffort g n = 0) ∧
      (isCompleted g n = false →
        getEffectiveEffort g n =
          jsRound (baseEffortOf g n *
            (((incoming g n).filter
                (fun e => e.type == EdgeType.FACILITATES && isCompleted g e.source)).map
              (fun e => 1 - e.factor.getD 0)).prod))) ∧
    getEffectiveEffort gFac "A" = 3 := by
  constructor
  · intro g n
    have hsplit :
        (incoming g n).filter
            (fun e => e.type == EdgeType.FACILITATES && isCompleted g e.source)
          = ((incoming g n).filter (fun e => e.type == EdgeType.FACILITATES)).filter
              (fun e => isCompleted g e.source) := by
      rw [List.filter_filter]
      exact (List.filter_congr (fun a _ => Bool.and_comm _ _))
    have hzero : jsRound 0 = 0 := by decide
    constructor
    · intro hc
      unfold getEffectiveEffort
      cases hm : mapGet g.nodes n with
      | none => rfl
      | some node => simp [hc]
    · intro hc
      unfold getEffectiveEffort baseEffortOf
      cases hm : mapGet g.nodes n with
      | none =>
        simp only [hm, Option.none_bind, Option.getD_none]
        rw [zero_mul, hzero]
      | some node =>
        simp only [hm, hc, Bool.false_eq_true, if_false, Option.some_bind]
        rw [reductionFold_eq_prod, one_mul, ← hsplit]
        by_cases hz : node.baseEffort.getD 0 = 0
        · rw [if_pos hz, hz, zero_mul, hzero]
        · rw [if_neg hz]
  · decide

/-- C5 witness: the general statement instantiated at the scenario graph. -/
theorem C5_witness :
    isCompleted gFac "A" = false ∧
    getEffectiveEffort gFac "A" =
      jsRound (baseEffortOf gFac "A" *
        (((incoming gFac "A").filter
            (fun e => e.type == EdgeType.FACILITATES && isCompleted gFac e.source)).map
          (fun e => 1 - e.factor.getD 0)).prod) :=
  ⟨rfl, (C5_effective_effort.1 gFac "A").2 rfl⟩

/-! ## C2: behavior on unknown node ids -/

theorem mapGet_eq_none_of_not_hasNode {g : RoadmapGraph} {id : String}
    (h : hasNode g id = false) : mapGet g.nodes id = none := by
  unfold mapGet
  apply List.find?_eq_none.mpr
  intro n hn
  intro hb
  have : hasNode g id = true :=
    List.any_eq_true.mpr ⟨n, by simpa using hn, hb⟩
  rw [this] at h
  cases h

/-- C2 counterexample: `"ghost"` is not a node of `gLone`, yet
`markIncomplete` returns normally (the whole-state equation — no Not-Found
failure), and `previewCompletion` also returns normally *and mutates the
prior state*: it leaves the unknown id inside the completed set. -/
theorem C2_counterexample :
    hasNode gLone "ghost" = false ∧
    markIncomplete gLone "ghost" = gLone ∧
    isCompleted gLone "ghost" = false ∧
    isCompleted (previewCompletion gLone "ghost").2 "ghost" = true := by
  refine ⟨rfl, ?_, rfl, ?_⟩ <;> decide

/-- C2 amended: on an unknown node id, `markCompleted` fails with the
Not-Found error and leaves the state untouched; `markIncomplete` is a silent
no-op (no failure, state untouched); `previewCompletion` does not fail and
returns a state whose completed set has the unknown id added (a no-op only
when the id was already in the completed set). -/
theorem C2_unknown_id (g : RoadmapGraph) (id : String) (h : hasNode g id = false) :
    markCompleted g id = Except.error ("Node not found: " ++ id) ∧
    markIncomplete g id = g ∧
    (previewCompletion g id).2 =
      { g with completedNodes := setAdd g.completedNodes id } := by
  have hm : mapGet g.nodes id = none := mapGet_eq_none_of_not_hasNode h
  have hout : outgoing g id = [] := by simp [outgoing, h]
  have hin : incoming g id = [] := by simp [incoming, h]
  refine ⟨?_, ?_, ?_⟩
  · simp [markCompleted, hm]
  · simp [markIncomplete, hm]
  · cases hc : isCompleted g id with
    | false =>
      simp [previewCompletion, hout, hin, hc, nowReadyScan, withCompleted]
    | true =>
      have hadd : setAdd g.completedNodes id = g.completedNodes := by
        unfold setAdd
        rw [if_pos]
        simpa [isCompleted] using hc
      simp [previewCompletion, hout, hin, hc, nowReadyScan, withCompleted, hadd]

/-- C2 witness: the amended statement instantiated at `gLone` and the
unknown id `"ghost"`. -/
theorem C2_witness :
    hasNode gLone "ghost" = false ∧
    (markCompleted gLone "ghost" = Except.error ("Node not found: " ++ "ghost") ∧
     markIncomplete gLone "ghost" = gLone ∧
     (previewCompletion gLone "ghost").2 =
       { gLone with completedNodes := setAdd gLone.completedNodes "ghost" }) :=
  ⟨rfl, C2_unknown_id gLone "ghost" rfl⟩

/-! ## C8: mark-completed / mark-incomplete round trip -/

theorem statusF_id (id : String) (st : NodeStatus) (n : GraphNode) :
    (statusF id st n).id = n.id := by
  unfold statusF
  split <;> rfl

theorem statusF_baseEffort (id : String) (st : NodeStatus) (n : GraphNode) :
    (statusF id st n).baseEffort = n.baseEffort := by
  unfold statusF
  split <;> rfl

theorem mapGet_setStatus (l : List GraphNode) (a : String) (st : NodeStatus) (b : String) :
    mapGet (setStatus l a st) b = (mapGet l b).map (statusF a st) := by
  unfold mapGet setStatus
  rw [← List.map_reverse, List.find?_map]
  have hp : ((fun n => n.id == b) ∘ statusF a st) = (fun n => n.id == b) := by
    funext n
    simp [Function.comp, statusF_id]
  rw [hp]

theorem hasNode_setStatus (ns : List GraphNode) (es : List GraphEdge) (c : List String)
    (a : String) (st : NodeStatus) (x : String) :
    hasNode ⟨setStatus ns a st, es, c⟩ x = hasNode ⟨ns, es, c⟩ x := by
  unfold hasNode setStatus
  rw [List.any_map]
  have hp : ((fun n => n.id == x) ∘ statusF a st) = (fun n => n.id == x) := by
    funext n
    simp [Function.comp, statusF_id]
  rw [hp]

theorem incoming_setStatus (ns : List GraphNode) (es : List GraphEdge) (c : List String)
    (a : String) (st : NodeStatus) (x : String) :
    incoming ⟨setStatus ns a st, es, c⟩ x = incoming ⟨ns, es, c⟩ x := by
  unfold incoming
  rw [hasNode_setStatus]

/-- A status write never changes any node's effective effort: the metric
reads only the completed set, the adjacency lists and `baseEffort`. -/
theorem getEffectiveEffort_setStatus (ns : List GraphNode) (es : List GraphEdge)
    (c : List String) (a : String) (st : NodeStatus) (n : String) :
    getEffectiveEffort ⟨setStatus ns a st, es, c⟩ n =
      getEffectiveEffort ⟨ns, es, c⟩ n := by
  unfold getEffectiveEffort
  rw [show (⟨setStatus ns a st, es, c⟩ : RoadmapGraph).nodes = setStatus ns a st from rfl,
    show (⟨ns, es, c⟩ : RoadmapGraph).nodes = ns from rfl, mapGet_setStatus]
  cases hm : mapGet ns n with
  | none => rfl
  | some node =>
    simp only [Option.map_some']
    rw [statusF_baseEffort, incoming_setStatus]
    rfl

theorem hasNode_iff {g : RoadmapGraph} {id : String} :
    hasNode g id = true ↔ ∃ n ∈ g.nodes, n.id = id := by
  simp [hasNode]

theorem mapGet_isSome_of_hasNode {g : RoadmapGraph} {id : String}
    (h : hasNode g id = true) : ∃ node, mapGet g.nodes id = some node := by
  obtain ⟨n, hn, hid⟩ := hasNode_iff.mp h
  have hs : (g.nodes.reverse.find? (fun n => n.id == id)).isSome := by
    rw [List.find?_isSome]
    exact ⟨n, by simpa using hn, by simp [hid]⟩
  obtain ⟨node, hnode⟩ := Option.isSome_iff_exists.mp hs
  exact ⟨node, hnode⟩

theorem afterComplete_eq {g : RoadmapGraph} {X : String} {node : GraphNode}
    (hm : mapGet g.nodes X = some node) :
    afterComplete g X =
      { g with
        completedNodes := setAdd g.completedNodes X
        nodes := setStatus g.nodes X NodeStatus.done } := by
  simp [afterComplete, markCompleted, hm]

theorem markIncomplete_eq {g : RoadmapGraph} {X : String} {node : GraphNode}
    (hm : mapGet g.nodes X = some node) :
    markIncomplete g X =
      { g with
        completedNodes := setDel g.completedNodes X
        nodes := setStatus g.nodes X NodeStatus.backlog } := by
  simp [markIncomplete, hm]

theorem setDel_setAdd {s : List String} {x : String} (h : s.contains x = false) :
    setDel (setAdd s x) x = s := by
  have hx : x ∉ s := by simpa using h
  unfold setAdd setDel
  rw [if_neg (by simpa using hx), List.filter_append]
  have h1 : s.filter (fun y => !(y == x)) = s :=
    List.filter_eq_self.mpr (fun y hy => by
      have hne : y ≠ x := fun hyx => hx (hyx ▸ hy)
      simpa using hne)
  simp [h1]

theorem contains_setDel (s : List String) (x : String) :
    (setDel s x).contains x = false := by
  by_contra hcon
  rw [Bool.not_eq_false] at hcon
  have hmem : x ∈ s.filter (fun y => !(y == x)) := by simpa [setDel] using hcon
  have := List.of_mem_filter hmem
  simp at this

/-- C8 counterexample: for the *already completed* node `X` of `gDoneX`,
the round trip does restore `isCompleted(X) = false`, but the effective
effort before the round trip was 0 (completed) and afterwards is 5 — not
restored, so the claim fails when quantified over every node. -/
theorem C8_counterexample :
    isCompleted gDoneX "X" = true ∧
    getEffectiveEffort gDoneX "X" = 0 ∧
    isCompleted (markIncomplete (afterComplete gDoneX "X") "X") "X" = false ∧
    getEffectiveEffort (markIncomplete (afterComplete gDoneX "X") "X") "X" = 5 ∧
    (5 : ℚ) ≠ 0 := by
  refine ⟨rfl, ?_, ?_, ?_, ?_⟩ <;> decide

/-- C8 amended: for every node of the graph that is *not already completed*,
`markCompleted(X)` followed by `markIncomplete(X)` restores
`isCompleted(X) = false` and restores `effectiveEffort(X)` to its value
before the `markCompleted` call. -/
theorem C8_roundtrip (g : RoadmapGraph) (X : String)
    (h1 : hasNode g X = true) (h2 : isCompleted g X = false) :
    isCompleted (markIncomplete (afterComplete g X) X) X = false ∧
    getEffectiveEffort (markIncomplete (afterComplete g X) X) X =
      getEffectiveEffort g X := by
  obtain ⟨node, hm⟩ := mapGet_isSome_of_hasNode h1
  rw [afterComplete_eq hm]
  have hm1 : mapGet (setStatus g.nodes X NodeStatus.done) X
      = some (statusF X NodeStatus.done node) := by
    rw [mapGet_setStatus, hm]
    rfl
  rw [markIncomplete_eq hm1]
  have hdel : setDel (setAdd g.completedNodes X) X = g.completedNodes :=
    setDel_setAdd (by simpa [isCompleted] using h2)
  constructor
  · exact contains_setDel _ _
  · show getEffectiveEffort
        ⟨setStatus (setStatus g.nodes X NodeStatus.done) X NodeStatus.backlog, g.edges,
          setDel (setAdd g.completedNodes X) X⟩ X = getEffectiveEffort g X
    rw [getEffectiveEffort_setStatus, getEffectiveEffort_setStatus, hdel]

/-- C8 witness: the amended statement instantiated at `gLone`/`A`. -/
theorem C8_witness :
    hasNode gLone "A" = true ∧ isCompleted gLone "A" = false ∧
    (isCompleted (markIncomplete (afterComplete gLone "A") "A") "A" = false ∧
     getEffectiveEffort (markIncomplete (afterComplete gLone "A") "A") "A" =
       getEffectiveEffort gLone "A") :=
  ⟨rfl, rfl, C8_roundtrip gLone "A" rfl rfl⟩

/-! ## C4: adjusted effort -/

theorem mem_mapKeys {l : List GraphNode} {id : String} :
    id ∈ mapKeys l ↔ ∃ n ∈ l, n.id = id := by
  unfold mapKeys
  suffices h : ∀ acc, (id ∈ l.foldl (fun acc n => setAdd acc n.id) acc ↔
      id ∈ acc ∨ ∃ n ∈ l, n.id = id) by
    simpa using h []
  induction l with
  | nil =>
    intro acc
    simp
  | cons a l ih =>
    intro acc
    rw [List.foldl_cons, ih, mem_setAdd]
    simp only [List.mem_cons]
    constructor
    · rintro ((h | h) | ⟨n, hn, hid⟩)
      · exact Or.inl h
      · exact Or.inr ⟨a, Or.inl rfl, h.symm⟩
      · exact Or.inr ⟨n, Or.inr hn, hid⟩
    · rintro (h | ⟨n, hn | hn, hid⟩)
      · exact Or.inl (Or.inl h)
      · subst hn
        exact Or.inl (Or.inr hid.symm)
      · exact Or.inr ⟨n, hn, hid⟩

/-- Projecting `(id, adjustedEffort)` out of the metrics bundle built over
keys whose map lookup succeeds. -/
theorem metrics_proj (l : List GraphNode) (F : String → GraphNode → NodeMetrics)
    (G : String → ℚ)
    (hF : ∀ id node, (F id node).id = id ∧ (F id node).adjustedEffort = G id) :
    ∀ ks : List String, (∀ id ∈ ks, ∃ node, mapGet l id = some node) →
      ((ks.filterMap (fun id => (mapGet l id).map (F id))).map
          (fun m => (m.id, m.adjustedEffort))) = ks.map (fun id => (id, G id)) := by
  intro ks
  induction ks with
  | nil =>
    intro _
    rfl
  | cons k ks ih =>
    intro h
    obtain ⟨node, hnode⟩ := h k (List.mem_cons_self k ks)
    simp only [List.filterMap_cons, hnode, Option.map_some', List.map_cons]
    rw [ih (fun id hid => h id (List.mem_cons_of_mem _ hid))]
    obtain ⟨h1, h2⟩ := hF k node
    rw [h1, h2]

/-- C4 amended: `getAdjustedEffort` is `effectiveEffort × (1 +
adjustedUncertainty)`, but the `adjustedEffort` field of each
`computeAllMetrics` record is `effectiveEffort × adjustedUncertainty` (the
`1 +` is missing there). -/
theorem C4_adjusted_effort (g : RoadmapGraph) :
    (∀ n, getAdjustedEffort g n =
        getEffectiveEffort g n * (1 + getAdjustedUncertainty g n)) ∧
    (computeAllMetrics g).map (fun m => (m.id, m.adjustedEffort)) =
      (mapKeys g.nodes).map
        (fun id => (id, getEffectiveEffort g id * getAdjustedUncertainty g id)) := by
  constructor
  · intro n
    rfl
  · simp only [computeAllMetrics]
    refine metrics_proj g.nodes _ _ ?_ (mapKeys g.nodes) ?_
    · intro id node
      exact ⟨rfl, rfl⟩
    · intro id hid
      obtain ⟨n, hn, hid'⟩ := mem_mapKeys.mp hid
      exact mapGet_isSome_of_hasNode (hasNode_iff.mpr ⟨n, hn, hid'⟩)

/-- C4 counterexample: in `gUnc` (`A` has effectiveEffort 8 and
adjustedUncertainty 1/2), `getAdjustedEffort` returns 12 = 8 × (1 + 1/2),
but the metrics bundle's `adjustedEffort` is 4 = 8 × 1/2: the two disagree,
so the claim's "both" fails. -/
theorem C4_counterexample :
    (computeAllMetrics gUnc).map (fun m => (m.id, m.adjustedEffort)) = [("A", 4)] ∧
    getAdjustedEffort gUnc "A" = 12 ∧
    getEffectiveEffort gUnc "A" * (1 + getAdjustedUncertainty gUnc "A") = 12 ∧
    ((4 : ℚ)) ≠ 12 := by
  refine ⟨?_, ?_, ?_, ?_⟩ <;> decide

/-! ## C6: influence-score normalization -/

theorem foldl_max_mem (vs : List ℚ) : ∀ v : ℚ, vs.foldl max v ∈ v :: vs := by
  induction vs with
  | nil =>
    intro v
    simp
  | cons a vs ih =>
    intro v
    rw [List.foldl_cons]
    rcases List.mem_cons.mp (ih (max v a)) with h | h
    · rcases max_choice v a with hm | hm
      · rw [h, hm]
        exact List.mem_cons_self _ _
      · rw [h, hm]
        exact List.mem_cons_of_mem _ (List.mem_cons_self _ _)
    · exact List.mem_cons_of_mem _ (List.mem_cons_of_mem _ h)

theorem le_foldl_max (vs : List ℚ) : ∀ v : ℚ, ∀ x ∈ v :: vs, x ≤ vs.foldl max v := by
  induction vs with
  | nil =>
    intro v x hx
    rw [List.mem_singleton] at hx
    subst hx
    simp
  | cons a vs ih =>
    intro v x hx
    rw [List.foldl_cons]
    rcases List.mem_cons.mp hx with hx | hx
    · subst hx
      exact le_trans (le_max_left x a) (ih (max x a) _ (List.mem_cons_self _ _))
    · rcases List.mem_cons.mp hx with hx | hx
      · subst hx
        exact le_trans (le_max_right v x) (ih (max v x) _ (List.mem_cons_self _ _))
      · exact ih (max v a) x (List.mem_cons_of_mem _ hx)

theorem scoreGet_nonneg {s : List (String × ℚ)} (h : ∀ p ∈ s, 0 < p.2) (id : String) :
    0 ≤ scoreGet s id := by
  unfold scoreGet
  cases hf : s.find? (fun p => p.1 == id) with
  | none => simp
  | some p =>
    simp only [Option.map_some', Option.getD_some]
    exact le_of_lt (h p (List.mem_of_find?_eq_some hf))

/-- The per-round fold only ever adds non-negative contributions, so the
`(1−d)/n` seed is a lower bound. -/
theorem influence_fold_lb (g : RoadmapGraph) (d : ℚ) (s : List (String × ℚ))
    (hd : 0 ≤ d) (hs : ∀ p ∈ s, 0 < p.2) (l : List GraphEdge) :
    ∀ c : ℚ,
      c ≤ l.foldl
          (fun score e =>
            score + d * (scoreGet s e.target /
              ((max (enablesCount g e.target) 1 : Nat) : ℚ))) c := by
  induction l with
  | nil =>
    intro c
    simp
  | cons a l ih =>
    intro c
    rw [List.foldl_cons]
    refine le_trans ?_ (ih _)
    refine le_add_of_nonneg_right (mul_nonneg hd (div_nonneg (scoreGet_nonneg hs _) ?_))
    exact Nat.cast_nonneg _

/-- All scores stay strictly positive through the iteration (damping fixed
at the default 0.85). -/
theorem influenceIter_pos (g : RoadmapGraph) (hn : mapKeys g.nodes ≠ []) :
    ∀ k : Nat, ∀ p ∈ influenceIter g (85/100) k, 0 < p.2 := by
  have hlen : 0 < ((mapKeys g.nodes).length : ℚ) := by
    exact_mod_cast List.length_pos.mpr hn
  intro k
  induction k with
  | zero =>
    intro p hp
    simp only [influenceIter] at hp
    rw [List.mem_map] at hp
    obtain ⟨id, _, rfl⟩ := hp
    exact div_pos one_pos hlen
  | succ k ih =>
    intro p hp
    simp only [influenceIter, influenceStep] at hp
    rw [List.mem_map] at hp
    obtain ⟨id, _, rfl⟩ := hp
    refine lt_of_lt_of_le (div_pos (by norm_num) hlen)
      (influence_fold_lb g (85/100) _ (by norm_num) ih _ _)

theorem influenceIter_ne_nil (g : RoadmapGraph) (d : ℚ) (k : Nat)
    (hn : mapKeys g.nodes ≠ []) : influenceIter g d k ≠ [] := by
  cases k with
  | zero => simpa [influenceIter] using hn
  | succ k => simpa [influenceIter, influenceStep] using hn

theorem influenceIter_keys_nil (g : RoadmapGraph) (d : ℚ) (k : Nat)
    (h : mapKeys g.nodes = []) : influenceIter g d k = [] := by
  cases k with
  | zero => simp [influenceIter, h]
  | succ k => simp [influenceIter, influenceStep, h]

/-- Reduction of `computeInfluenceScores` once the value list is known to be
non-empty. -/
theorem computeInfluenceScores_cons (g : RoadmapGraph) (iters : Nat) (d : ℚ)
    (v : ℚ) (vs : List ℚ) (hv : (influenceIter g d iters).map Prod.snd = v :: vs) :
    computeInfluenceScores g iters d =
      if 0 < vs.foldl max v then
        (influenceIter g d iters).map (fun p => (p.1, p.2 / vs.foldl max v))
      else influenceIter g d iters := by
  simp only [computeInfluenceScores]
  rw [hv]

/-- C6: for a graph with at least one node, the influence map (default 20
iterations, damping 0.85) has maximum value exactly 1; for the empty graph
the result is empty (no positive score at all). -/
theorem C6_influence_normalization (g : RoadmapGraph) :
    (g.nodes ≠ [] →
      ((computeInfluenceScores g 20 (85/100)).map Prod.snd).maximum = some (1 : ℚ)) ∧
    (g.nodes = [] → computeInfluenceScores g 20 (85/100) = []) := by
  constructor
  · intro hne
    have hkeys : mapKeys g.nodes ≠ [] := by
      intro hk
      obtain ⟨n, hn⟩ := List.exists_mem_of_ne_nil g.nodes hne
      have hmem : n.id ∈ mapKeys g.nodes := mem_mapKeys.mpr ⟨n, hn, rfl⟩
      rw [hk] at hmem
      cases hmem
    have hpos : ∀ p ∈ influenceIter g (85/100) 20, 0 < p.2 :=
      influenceIter_pos g hkeys 20
    have hfn : influenceIter g (85/100) 20 ≠ [] :=
      influenceIter_ne_nil g (85/100) 20 hkeys
    cases hv : (influenceIter g (85/100) 20).map Prod.snd with
    | nil =>
      exact absurd (List.map_eq_nil_iff.mp hv) hfn
    | cons v vs =>
      have hmem : vs.foldl max v ∈ v :: vs := foldl_max_mem vs v
      have hub : ∀ x ∈ v :: vs, x ≤ vs.foldl max v := le_foldl_max vs v
      have hMpos : 0 < vs.foldl max v := by
        have hmem' : vs.foldl max v ∈ (influenceIter g (85/100) 20).map Prod.snd := by
          rw [hv]
          exact hmem
        rw [List.mem_map] at hmem'
        obtain ⟨p, hp, he⟩ := hmem'
        rw [← he]
        exact hpos p hp
      rw [computeInfluenceScores_cons g 20 (85/100) v vs hv, if_pos hMpos, List.map_map]
      have hproj : (Prod.snd ∘ fun p : String × ℚ => (p.1, p.2 / vs.foldl max v))
          = fun p : String × ℚ => p.2 / vs.foldl max v := rfl
      rw [hproj]
      have hvals : (influenceIter g (85/100) 20).map
            (fun p : String × ℚ => p.2 / vs.foldl max v)
          = (v :: vs).map (fun x => x / vs.foldl max v) := by
        rw [← hv, List.map_map]
        rfl
      rw [hvals]
      apply List.maximum_eq_coe_iff.mpr
      constructor
      · rw [List.mem_map]
        exact ⟨vs.foldl max v, hmem, div_self (ne_of_gt hMpos)⟩
      · intro b hb
        rw [List.mem_map] at hb
        obtain ⟨x, hx, rfl⟩ := hb
        exact (div_le_one hMpos).mpr (hub x hx)
  · intro he
    have hk : mapKeys g.nodes = [] := by simp [mapKeys, he]
    simp [computeInfluenceScores, influenceIter_keys_nil g (85/100) 20 hk]

/-- C6 witness: the non-empty clause instantiated at the one-node graph. -/
theorem C6_witness :
    gLone.nodes ≠ [] ∧
    ((computeInfluenceScores gLone 20 (85/100)).map Prod.snd).maximum = some (1 : ℚ) :=
  ⟨by decide, (C6_influence_normalization gLone).1 (by decide)⟩

end PriorityGraph
